import Mathlib

/-!
Verification development for the aukmind/image converter.

The program is a single-page image converter (sources: `src/unnamed/part_000`,
an older variant in `src/src/App.vue`).  Its core pipeline — format catalog,
edit application (rotate/resize), the per-file conversion loop, the
animation-merge loop, output packaging, error classification, file ingestion
filtering, and the reactive watch on the resize fields — is embedded below as
executable Lean definitions.  Pixel-level decode/encode/resize/rotate and the
archive compression are external collaborators (the `@imagemagick/magick-wasm`
engine and JSZip); they are modelled abstractly: engine calls are recorded as
operations on an image value, and the per-file converter / one-frame decoder
are parameters of the orchestration functions.
-/

/-- Target formats selectable in the UI (`MagickFormat` members referenced by
`quickFormats` / `extraFormats` in the source), plus `Heic`, a real
`MagickFormat` member that is NOT in either catalog (it is present but
commented out in `src/src/App.vue`), standing for an unrecognized format. -/
inductive MagickFormat where
  | Png | Jpeg | Gif | Ico | WebP | Pdf
  | Bmp | Tiff | Tga | Avif | Dds
  | Heic
deriving DecidableEq, Repr

/-- `quickFormats` table from the source: UI label → format. -/
def quickFormats : List (String × MagickFormat) :=
  [("PNG", MagickFormat.Png), ("JPG", MagickFormat.Jpeg),
   ("GIF", MagickFormat.Gif), ("ICO", MagickFormat.Ico),
   ("WEBP", MagickFormat.WebP), ("PDF", MagickFormat.Pdf)]

/-- `extraFormats` table from the source: UI label → format. -/
def extraFormats : List (String × MagickFormat) :=
  [("BMP", MagickFormat.Bmp), ("TIFF", MagickFormat.Tiff),
   ("TGA", MagickFormat.Tga), ("AVIF", MagickFormat.Avif),
   ("DDS", MagickFormat.Dds)]

/-- JavaScript `key.toLowerCase()` on the ASCII catalog keys (character-wise
`Char.toLower`; kept kernel-computable). -/
def jsToLower (s : String) : String := String.mk (s.data.map Char.toLower)

/-- JavaScript `s.startsWith(p)` (kernel-computable prefix test on the
character lists). -/
def jsStartsWith (s p : String) : Bool := p.data.isPrefixOf s.data

/-- Extension resolution, embedding `convertAndDownload` lines 180–185 of
`part_000` (identically in `App.vue` lines 122–132): start from `'dat'`,
look the format up in `quickFormats`, then in `extraFormats`, lowercase the
key, and special-case `'jpeg'` to `'jpg'`. -/
def resolveExtension (f : MagickFormat) : String :=
  let ext := "dat"
  let ext := match quickFormats.find? (fun p => p.2 == f) with
    | Option.some p => jsToLower p.1
    | Option.none => ext
  let ext := match extraFormats.find? (fun p => p.2 == f) with
    | Option.some p => jsToLower p.1
    | Option.none => ext
  if ext == "jpeg" then "jpg" else ext

/-- `isMultiFrameFormat` computed from the source. -/
def isMultiFrameFormat (target : MagickFormat) : Bool :=
  [MagickFormat.Gif, MagickFormat.WebP, MagickFormat.Pdf,
   MagickFormat.Tiff].contains target

/-- `canMergeAnimation` computed from the source: false with fewer than two
files, otherwise the target must be GIF or WebP. -/
def canMergeAnimation (filesLen : Nat) (target : MagickFormat) : Bool :=
  if filesLen < 2 then false
  else [MagickFormat.Gif, MagickFormat.WebP].contains target

/-- JavaScript truthiness of the numeric resize inputs: `null` / empty map to
`Option.none`, an entered number to `Option.some v`; `0` and empty are falsy. -/
def jsTruthy : Option Nat → Bool
  | Option.none => false
  | Option.some v => v != 0

/-- Resize mode, the `'none' | 'percent' | 'pixels'` string discriminator
of the source's `resizeMode` ref. -/
inductive ResizeMode where
  | noResize  -- source string 'none'
  | percent   -- source string 'percent'
  | pixels    -- source string 'pixels'
deriving DecidableEq, Repr

/-- Snapshot of the editor refs read by `applyEdits`.  `ratioLock` is the
source's `lockRatio` ref. -/
structure EditState where
  rotation : Int
  resizeMode : ResizeMode
  resizePercent : Nat
  resizeWidth : Option Nat
  resizeHeight : Option Nat
  ratioLock : Bool
deriving DecidableEq, Repr

/-- Engine operations issued on a `MagickImage`.  Resize arguments are exact
rationals (`image.width * (resizePercent / 100)` is computed in JS floating
point; IEEE-754 rounding of that product is below this model's abstraction
level). `resize` is the aspect-preserving call `image.resize(w, h)`;
`resizeExact` is `image.resize(geometry)` with `ignoreAspectRatio = true`;
`extent` is `image.extent(w, h, gravity)`. -/
inductive ImageOp where
  | rotate (degrees : Int)
  | resize (w h : ℚ)
  | resizeExact (w h : ℚ)
  | extent (w h : Nat) (gravity : Nat)
deriving DecidableEq, Repr

/-- Gravity constant from the source (`const GRAVITY_CENTER = 5`; 5 is
`Gravity.Center` in magick-wasm). -/
def GRAVITY_CENTER : Nat := 5

/-- Model of a `MagickImage`: current pixel dimensions, the trace of engine
operations applied so far, and the metadata fields the source assigns
(`format`, `quality`, `animationDelay`, `gifDisposeMethod`,
`backgroundColor` as RGBA). -/
structure Image where
  width : Nat
  height : Nat
  ops : List ImageOp
  format : MagickFormat
  quality : Nat
  animationDelay : Nat
  gifDisposeMethod : Nat
  backgroundColor : Option (Nat × Nat × Nat × Nat)
deriving DecidableEq, Repr

/-- Dimension effect of `image.rotate(deg)` for quarter-turn angles: an odd
number of quarter turns swaps width and height.  The UI only ever produces
multiples of 90 (`rotateLeft` / `rotateRight` step by ±90); for other angles
the real engine produces an enlarged bounding box, which is not modelled and
on which no claim depends. -/
def rotateDims (deg : Int) (w h : Nat) : Nat × Nat :=
  if deg % 180 == 0 then (w, h)
  else if deg % 90 == 0 then (h, w)
  else (w, h)

/-- `image.rotate(deg)`: records the operation and updates the dimensions. -/
def Image.rotate (deg : Int) (img : Image) : Image :=
  let d := rotateDims deg img.width img.height
  { img with width := d.1, height := d.2, ops := img.ops ++ [ImageOp.rotate deg] }

/-- Aspect-preserving `image.resize(w, h)` (bounding-box fit).  The resulting
pixel dimensions are chosen by the external engine and are never read again
by the embedded code, so the model records the operation and leaves the
stored dimensions unchanged. -/
def Image.resizeFit (w h : ℚ) (img : Image) : Image :=
  { img with ops := img.ops ++ [ImageOp.resize w h] }

/-- `image.resize(geometry)` with `geometry.ignoreAspectRatio = true`:
exact target size, aspect ratio ignored.  Like `Image.resizeFit`, the result
dimensions are engine-side and unread, so only the operation is recorded. -/
def Image.resizeExact (w h : ℚ) (img : Image) : Image :=
  { img with ops := img.ops ++ [ImageOp.resizeExact w h] }

/-- `image.extent(w, h, gravity)`: pads/crops the canvas to exactly `w × h`,
which is the defined result size of extent, anchored per `gravity`. -/
def Image.extent (w h gravity : Nat) (img : Image) : Image :=
  { img with width := w, height := h,
             ops := img.ops ++ [ImageOp.extent w h gravity] }

/-- `applyEdits` from `part_000` lines 330–349 (the same logic is inlined in
`App.vue`'s `processSingleImage`): rotate when `rotation !== 0`, then resize
according to `resizeMode`.  In `'pixels'` mode a falsy width/height input
defaults to the frame's current corresponding dimension
(`resizeWidth.value ? parseInt(resizeWidth.value) : image.width`). -/
def applyEdits (st : EditState) (image : Image) : Image :=
  let image := if st.rotation != 0 then Image.rotate st.rotation image else image
  match st.resizeMode with
  | ResizeMode.percent =>
      Image.resizeFit ((image.width : ℚ) * st.resizePercent / 100)
        ((image.height : ℚ) * st.resizePercent / 100) image
  | ResizeMode.pixels =>
      let w : Nat := if jsTruthy st.resizeWidth then st.resizeWidth.getD 0 else image.width
      let h : Nat := if jsTruthy st.resizeHeight then st.resizeHeight.getD 0 else image.height
      if st.ratioLock then Image.resizeFit (w : ℚ) (h : ℚ) image
      else Image.resizeExact (w : ℚ) (h : ℚ) image
  | ResizeMode.noResize => image

/-- Byte payload of a produced blob; the external encoder's output is opaque
to the embedded code, which only forwards it. -/
abbrev Blob := List Nat

/-- An ingested file as the pipeline sees it: original name, declared mime
type, and its bytes (opaque here; only external calls look inside). -/
structure FileItem where
  name : String
  mime : String
deriving DecidableEq, Repr

/-- Snapshot of the refs read by `convertAndDownload` and the two
processors: the file list, target format, editor state, `animationDelay`
(ms), `zipOutput` and `makeAnimation` flags, and `quality`. -/
structure JobState where
  files : List FileItem
  targetFormat : MagickFormat
  edit : EditState
  animationDelay : Nat
  zipOutput : Bool
  makeAnimation : Bool
  quality : Nat
deriving Repr

/-- JavaScript `Math.round(d / 10)` for a natural `d`:
`floor(d/10 + 1/2) = (d + 5) / 10` in natural division. -/
def jsMathRound10 (d : Nat) : Nat := (d + 5) / 10

/-- Disposal value the source assigns (`image.gifDisposeMethod = 2`);
2 is `Background` — "restore to background" — in the GIF dispose enum. -/
def GIF_DISPOSE_BACKGROUND : Nat := 2

/-- The canvas-extension guard of `processMergeAnimation` line 297:
`targetFormat === Gif && resizeMode === 'pixels' && resizeWidth &&
resizeHeight && lockRatio`. -/
def mergeExtentCond (job : JobState) : Bool :=
  job.targetFormat == MagickFormat.Gif
    && job.edit.resizeMode == ResizeMode.pixels
    && jsTruthy job.edit.resizeWidth
    && jsTruthy job.edit.resizeHeight
    && job.edit.ratioLock

/-- Per-frame body of the `processMergeAnimation` loop (lines 295–310),
after the one-frame decode: apply edits; under `mergeExtentCond` set a fully
transparent background (`new MagickColor(0, 0, 0, 0)`) and extend the canvas
to the parsed width × height anchored at `GRAVITY_CENTER`; set
`animationDelay = Math.round(delay / 10)`; for GIF set
`gifDisposeMethod = 2`. -/
def processMergeFrame (job : JobState) (image : Image) : Image :=
  let image := applyEdits job.edit image
  let image :=
    if mergeExtentCond job then
      let w := job.edit.resizeWidth.getD 0
      let h := job.edit.resizeHeight.getD 0
      Image.extent w h GRAVITY_CENTER
        { image with backgroundColor := Option.some (0, 0, 0, 0) }
    else image
  let image := { image with animationDelay := jsMathRound10 job.animationDelay }
  if job.targetFormat == MagickFormat.Gif then
    { image with gifDisposeMethod := GIF_DISPOSE_BACKGROUND }
  else image

/-- Sequential effectful iteration with abort-on-first-error, the semantics
of the source's sequential `await` loops inside one `try` block: the first
raised error propagates, later items are not visited. -/
def mapExcept (g : α → Except String β) : List α → Except String (List β)
  | [] => Except.ok []
  | a :: l =>
    match g a with
    | Except.error e => Except.error e
    | Except.ok b =>
      match mapExcept g l with
      | Except.error e => Except.error e
      | Except.ok bs => Except.ok (b :: bs)

/-- Result of the merge pipeline before the external encode: the assembled
frame collection (in push order) and whether `collection.optimize()` was
invoked (the GIF-only optimization pass; its pixel effect is external). -/
structure MergeOut where
  frames : List Image
  optimizeRun : Bool
deriving Repr

/-- `processMergeAnimation` (lines 281–328) up to the external
`collection.write`: for each file in order, decode exactly one frame
(`MagickImage.create(); image.read(bytes)`, modelled by the `decode`
parameter, which may fail), run the per-frame body, and push onto the
collection; afterwards record the GIF-only optimize pass.  The final encode
and the `Blob` it produces are external. -/
def processMergeAnimation (decode : FileItem → Except String Image)
    (job : JobState) : Except String MergeOut :=
  match mapExcept (fun f => (decode f).map (processMergeFrame job)) job.files with
  | Except.error e => Except.error e
  | Except.ok frames =>
    Except.ok { frames := frames,
                optimizeRun := job.targetFormat == MagickFormat.Gif }

/-- Is `p` an infix of `s` (character lists)?  Embeds JavaScript
`String.prototype.includes`. -/
def hasInfixChars (s p : List Char) : Bool :=
  if p.isPrefixOf s then true
  else match s with
    | [] => false
    | _ :: t => hasInfixChars t p

/-- JavaScript `msg.includes(pat)`. -/
def jsIncludes (msg pat : String) : Bool := hasInfixChars msg.data pat.data

/-- The `catch` block of `convertAndDownload` (lines 222–230): the message
chosen for a raised failure, by failure signature. -/
def classifyError (msg : String) : String :=
  if jsIncludes msg "FailedToExecuteCommand" || jsIncludes msg "ffmpeg" then
    "This format requires external libraries (ffmpeg) not available. Please use GIF or WebP."
  else if jsIncludes msg "ImagesAreNotTheSameSize" then
    "GIF Error: Frames mismatch. Please ensure 'Resize' width/height are set if locking ratio."
  else
    "Conversion failed. " ++ msg

/-- `name.replace(/\.[^/.]+$/, "")`: strip a final `.ext` suffix whose
extension part is nonempty and contains neither `.` nor `/`. -/
def stripExtension (s : String) : String :=
  let r := s.data.reverse
  let pre := r.takeWhile (fun c => c != '.' && c != '/')
  let rest := r.drop pre.length
  match rest with
  | '.' :: kept =>
    if pre.isEmpty then s else String.mk kept.reverse
  | _ => s

/-- Derived output name: original name with its extension stripped, then
`'.' + ext` appended. -/
def deriveName (name ext : String) : String :=
  stripExtension name ++ "." ++ ext

/-- What `convertAndDownload` hands to the download collaborator (or the
error message it displays).  `noFiles` is the early return on an empty file
list; `mergeDownload` carries the assembled merge collection whose external
encode produces the downloaded blob. -/
inductive RunOutcome where
  | noFiles
  | mergeDownload (filename : String) (out : MergeOut)
  | zipDownload (filename : String) (entries : List (String × Blob))
  | singleDownload (filename : String) (blob : Blob)
  | runError (message : String)
deriving Repr

/-- The animation branch of `convertAndDownload` (lines 187–192): run
`processMergeAnimation` and download as `animation.<ext>`; a raised error is
classified by the `catch` block. -/
def mergeBranch (decode : FileItem → Except String Image)
    (job : JobState) : RunOutcome :=
  match processMergeAnimation decode job with
  | Except.ok out =>
    RunOutcome.mergeDownload ("animation." ++ resolveExtension job.targetFormat) out
  | Except.error e => RunOutcome.runError (classifyError e)

/-- The packaging step after the per-file loop (lines 209–220): zip when
`zipOutput || totalFiles > 1` (named `converted_images.zip`), otherwise the
single accumulated output is downloaded directly.  The `[]` case is
unreachable: the loop ran over a nonempty file list. -/
def packageOutputs (job : JobState) (processed : List (String × Blob)) : RunOutcome :=
  if job.zipOutput || decide (1 < job.files.length) then
    RunOutcome.zipDownload "converted_images.zip" processed
  else
    match processed with
    | p :: _ => RunOutcome.singleDownload p.1 p.2
    | [] => RunOutcome.noFiles

/-- The per-file branch of `convertAndDownload` (lines 193–220): convert
each file in order (`processSingleImage`, modelled by the `convert`
parameter), renaming each output to its derived name; on success package via
`packageOutputs`; a raised error is classified by the `catch` block. -/
def perFileBranch (convert : FileItem → Except String Blob)
    (job : JobState) : RunOutcome :=
  match mapExcept
      (fun item => (convert item).map
        (fun b => (deriveName item.name (resolveExtension job.targetFormat), b)))
      job.files with
  | Except.error e => RunOutcome.runError (classifyError e)
  | Except.ok processed => packageOutputs job processed

/-- `convertAndDownload` (lines 173–238): early return on an empty file
list; take the animation-merge branch when
`makeAnimation && canMergeAnimation`, otherwise the per-file branch. -/
def convertAndDownload (convert : FileItem → Except String Blob)
    (decode : FileItem → Except String Image) (job : JobState) : RunOutcome :=
  if job.files.length == 0 then RunOutcome.noFiles
  else if job.makeAnimation
      && canMergeAnimation job.files.length job.targetFormat then
    mergeBranch decode job
  else
    perFileBranch convert job

/-- A file as handed over by the selection/drop collaborator: name plus
declared mime type (`f.name`, `f.type`). -/
structure SelEntry where
  name : String
  mime : String
deriving DecidableEq, Repr

/-- `addFiles` (lines 118–152), reduced to its data flow: partition the
selection by `f.type.startsWith('image/')`; when anything was rejected,
build the skip message from the first five rejected names and, when more
than five were rejected, a `, and N others.` suffix; the accepted entries
are appended to the current list unaffected.  Returns (new file list,
error message). -/
def addFiles (current : List SelEntry) (fileList : List SelEntry) :
    List SelEntry × String :=
  let validFiles := fileList.filter (fun f => jsStartsWith f.mime "image/")
  let rejectedNames :=
    (fileList.filter (fun f => !jsStartsWith f.mime "image/")).map (fun f => f.name)
  let msg :=
    if 0 < rejectedNames.length then
      let displayNames := String.intercalate ", " (rejectedNames.take 5)
      let extraCount : Int := (rejectedNames.length : Int) - 5
      let suffix := if 0 < extraCount then ", and " ++ toString extraCount ++ " others." else "."
      "Skipped unsupported files: " ++ displayNames ++ suffix
    else ""
  (current ++ validFiles, msg)

/-- The reactive editor state the `watch([resizeWidth, resizeHeight])`
callback acts on: resize mode, the two dimension inputs, and the source's
`lockRatio` flag (named `ratioLock` here). -/
structure UIState where
  resizeMode : ResizeMode
  resizeWidth : Option Nat
  resizeHeight : Option Nat
  ratioLock : Bool
deriving DecidableEq, Repr

/-- Initial editor state from the ref declarations:
`resizeMode = 'none'`, both dimensions `null`, `lockRatio = true`. -/
def initState : UIState :=
  { resizeMode := ResizeMode.noResize,
    resizeWidth := Option.none,
    resizeHeight := Option.none,
    ratioLock := true }

/-- User interactions that touch these four fields.  `setWidth` / `setHeight`
model typing in the W/H inputs and `toggleRatioLock` the lock button; the
template renders all three only under `v-if="resizeMode === 'pixels'"`, so
these events have no effect in any other mode.  `setMode` models the
always-visible mode selector. -/
inductive UIEvent where
  | setMode (m : ResizeMode)
  | setWidth (v : Option Nat)
  | setHeight (v : Option Nat)
  | toggleRatioLock
deriving DecidableEq, Repr

/-- The `watch([resizeWidth, resizeHeight])` callback (lines 91–95): when
both new values are truthy and the mode is `'pixels'`, force the ratio lock
off. -/
def dimWatch (s : UIState) : UIState :=
  if jsTruthy s.resizeWidth && jsTruthy s.resizeHeight
      && (s.resizeMode == ResizeMode.pixels) then
    { s with ratioLock := false }
  else s

/-- One interaction step.  A dimension edit only exists in `'pixels'` mode
(template guard) and the watch callback only fires when the watched value
actually changed (Vue watch semantics); the lock toggle likewise only exists
in `'pixels'` mode. -/
def step (s : UIState) (e : UIEvent) : UIState :=
  match e with
  | UIEvent.setMode m => { s with resizeMode := m }
  | UIEvent.setWidth v =>
    if s.resizeMode == ResizeMode.pixels && v != s.resizeWidth then
      dimWatch { s with resizeWidth := v }
    else s
  | UIEvent.setHeight v =>
    if s.resizeMode == ResizeMode.pixels && v != s.resizeHeight then
      dimWatch { s with resizeHeight := v }
    else s
  | UIEvent.toggleRatioLock =>
    if s.resizeMode == ResizeMode.pixels then
      { s with ratioLock := !s.ratioLock }
    else s

/-- State after a sequence of interactions from the initial editor state. -/
def runTrace (tr : List UIEvent) : UIState := tr.foldl step initState

/-- Both dimension inputs hold a truthy value. -/
def bothSet (s : UIState) : Bool :=
  jsTruthy s.resizeWidth && jsTruthy s.resizeHeight

/-- The editor-state part of the GIF canvas-padding precondition checked at
`processMergeAnimation` line 297: `'pixels'` mode, both dimensions truthy,
ratio lock on. -/
def gifPadPrecond (s : UIState) : Bool :=
  (s.resizeMode == ResizeMode.pixels) && bothSet s && s.ratioLock

/-- The key under which a format appears in the two catalog tables. -/
def catalogKey (f : MagickFormat) : Option String :=
  ((quickFormats ++ extraFormats).find? (fun p => p.2 == f)).map (fun p => p.1)

/-- Modelled from the spec's words (§4.1): the JPEG family resolves to
`"jpg"`, every other cataloged format to its lowercase catalog key, and an
unrecognized format to `"dat"`.  Stated separately from `resolveExtension`
(which embeds the code) so the two can be compared. -/
def specExtension (f : MagickFormat) : String :=
  if f = MagickFormat.Jpeg then "jpg"
  else
    match catalogKey f with
    | Option.some k => jsToLower k
    | Option.none => "dat"

/-- If a sequential loop succeeds, post-composing each item's result with a
pure renaming succeeds with the renamed results. -/
lemma mapExcept_ok_map {α β γ : Type} {g : α → Except String β} (hm : β → γ)
    {l : List α} {bs : List β} (h : mapExcept g l = Except.ok bs) :
    mapExcept (fun a => (g a).map hm) l = Except.ok (bs.map hm) := by
  induction l generalizing bs with
  | nil =>
    simp only [mapExcept] at h
    cases h
    rfl
  | cons a t ih =>
    cases hga : g a with
    | error e =>
      simp only [mapExcept, hga] at h
      exact Except.noConfusion h
    | ok b =>
      simp only [mapExcept, hga] at h
      cases hgt : mapExcept g t with
      | error e => rw [hgt] at h; exact Except.noConfusion h
      | ok bs' =>
        rw [hgt] at h
        cases h
        simp only [mapExcept, hga, ih hgt, List.map]
        rfl

/-- A successful sequential loop returns one result per input. -/
lemma mapExcept_ok_length {α β : Type} {g : α → Except String β}
    {l : List α} {bs : List β} (h : mapExcept g l = Except.ok bs) :
    bs.length = l.length := by
  induction l generalizing bs with
  | nil =>
    simp only [mapExcept] at h
    cases h
    rfl
  | cons a t ih =>
    cases hga : g a with
    | error e =>
      simp only [mapExcept, hga] at h
      exact Except.noConfusion h
    | ok b =>
      simp only [mapExcept, hga] at h
      cases hgt : mapExcept g t with
      | error e => rw [hgt] at h; exact Except.noConfusion h
      | ok bs' =>
        rw [hgt] at h
        cases h
        simp [ih hgt]

/-- A sequential loop containing a failing item fails. -/
lemma mapExcept_error_of_mem {α β : Type} {g : α → Except String β}
    {l : List α} {a : α} (ha : a ∈ l) {e : String} (hg : g a = Except.error e) :
    ∃ e', mapExcept g l = Except.error e' := by
  induction l with
  | nil => cases ha
  | cons b t ih =>
    rcases List.mem_cons.mp ha with rfl | hmem
    · exact ⟨e, by simp only [mapExcept, hg]⟩
    · cases hgb : g b with
      | error e2 => exact ⟨e2, by simp only [mapExcept, hgb]⟩
      | ok bb =>
        obtain ⟨e', he'⟩ := ih hmem
        exact ⟨e', by simp only [mapExcept, hgb, he']⟩

/-- The run-time branch condition of `convertAndDownload`, spelled out. -/
lemma mergeCond_iff (ma : Bool) (n : Nat) (tf : MagickFormat) :
    (ma && canMergeAnimation n tf) = true ↔
      (ma = true ∧ (tf = MagickFormat.Gif ∨ tf = MagickFormat.WebP) ∧ 2 ≤ n) := by
  by_cases hn : n < 2
  · simp only [canMergeAnimation, if_pos hn, Bool.and_false]
    constructor
    · intro hfalse; cases hfalse
    · rintro ⟨-, -, h3⟩; omega
  · simp only [canMergeAnimation, if_neg hn]
    cases ma <;> cases tf <;>
      simp [List.contains, Nat.le_of_not_lt hn]

/-- C6: for every target format, the resolved file extension is `"jpg"` for
the JPEG family, the lowercase catalog key for every other cataloged format,
and `"dat"` for a format outside the catalog. -/
theorem c6_resolveExtension_spec (f : MagickFormat) :
    resolveExtension f = specExtension f := by
  cases f <;> rfl

/-- C1: with a nonempty file list, the run takes the animation-merge branch
exactly when the merge flag is on, the target format is GIF or WebP, and
there are at least two inputs; in every other case it takes the per-file
branch. -/
theorem c1_merge_path_decision (convert : FileItem → Except String Blob)
    (decode : FileItem → Except String Image) (job : JobState)
    (hne : job.files ≠ []) :
    convertAndDownload convert decode job =
      if job.makeAnimation = true
          ∧ (job.targetFormat = MagickFormat.Gif ∨ job.targetFormat = MagickFormat.WebP)
          ∧ 2 ≤ job.files.length then
        mergeBranch decode job
      else
        perFileBranch convert job := by
  have h0 : (job.files.length == 0) = false := by
    simp only [beq_eq_false_iff_ne, ne_eq]
    intro hlen
    exact hne (List.eq_nil_of_length_eq_zero hlen)
  by_cases hc : job.makeAnimation = true
      ∧ (job.targetFormat = MagickFormat.Gif ∨ job.targetFormat = MagickFormat.WebP)
      ∧ 2 ≤ job.files.length
  · rw [if_pos hc]
    have hb := (mergeCond_iff job.makeAnimation job.files.length job.targetFormat).mpr hc
    simp only [convertAndDownload, h0, Bool.false_eq_true, if_false, hb, if_true]
  · rw [if_neg hc]
    have hb : (job.makeAnimation
        && canMergeAnimation job.files.length job.targetFormat) = false := by
      cases hbv : (job.makeAnimation
          && canMergeAnimation job.files.length job.targetFormat) with
      | false => rfl
      | true => exact absurd ((mergeCond_iff _ _ _).mp hbv) hc
    simp only [convertAndDownload, h0, Bool.false_eq_true, if_false, hb]

/-- The merge loop stores `Math.round(delay / 10)` on every frame, whatever
the extent and disposal branches do. -/
lemma processMergeFrame_delay (job : JobState) (img : Image) :
    (processMergeFrame job img).animationDelay = jsMathRound10 job.animationDelay := by
  unfold processMergeFrame
  split <;> split <;> rfl

/-- For a GIF target the merge loop sets every frame's disposal to
"restore to background". -/
lemma processMergeFrame_dispose (job : JobState) (img : Image)
    (hfmt : job.targetFormat = MagickFormat.Gif) :
    (processMergeFrame job img).gifDisposeMethod = GIF_DISPOSE_BACKGROUND := by
  unfold processMergeFrame
  simp only [hfmt, beq_self_eq_true, if_true]

/-- C2: a merge run over three inputs with target GIF, merge enabled and a
200 ms frame delay downloads `animation.gif` built from a collection of
exactly three frames — the processed decodes of the inputs, in input
order — each storing delay `Math.round(200/10) = 20` (centiseconds) and
disposal "restore to background" (GIF dispose value 2). -/
theorem c2_merge_three_gif_frames (convert : FileItem → Except String Blob)
    (decode : FileItem → Except String Image) (job : JobState) (imgs : List Image)
    (hfmt : job.targetFormat = MagickFormat.Gif)
    (hma : job.makeAnimation = true)
    (hdelay : job.animationDelay = 200)
    (hlen : job.files.length = 3)
    (hdec : mapExcept decode job.files = Except.ok imgs) :
    ∃ out, convertAndDownload convert decode job =
        RunOutcome.mergeDownload "animation.gif" out
      ∧ out.frames = imgs.map (processMergeFrame job)
      ∧ out.frames.length = 3
      ∧ ∀ fr ∈ out.frames,
          fr.animationDelay = 20 ∧ fr.gifDisposeMethod = GIF_DISPOSE_BACKGROUND := by
  have h0 : (job.files.length == 0) = false := by rw [hlen]; rfl
  have hcm : canMergeAnimation job.files.length job.targetFormat = true := by
    rw [hlen, hfmt]; rfl
  have hpm : processMergeAnimation decode job =
      Except.ok { frames := imgs.map (processMergeFrame job),
                  optimizeRun := job.targetFormat == MagickFormat.Gif } := by
    unfold processMergeAnimation
    rw [mapExcept_ok_map (processMergeFrame job) hdec]
  refine ⟨{ frames := imgs.map (processMergeFrame job),
            optimizeRun := job.targetFormat == MagickFormat.Gif }, ?_, rfl, ?_, ?_⟩
  · unfold convertAndDownload
    rw [h0, hma, hcm]
    unfold mergeBranch
    rw [hpm, hfmt]
    rfl
  · rw [List.length_map, mapExcept_ok_length hdec, hlen]
  · intro fr hfr
    rcases List.mem_map.mp hfr with ⟨i, -, rfl⟩
    refine ⟨?_, processMergeFrame_dispose job i hfmt⟩
    rw [processMergeFrame_delay, hdelay]
    rfl

/-- C3: in the merge loop a frame's canvas is extended exactly under the
condition target = GIF ∧ mode = Pixels ∧ both dimensions truthy ∧ ratio lock
on; when it is, the canvas becomes exactly the parsed width × height,
anchored at `GRAVITY_CENTER` with a fully transparent `(0,0,0,0)` background;
in every other case no extent operation is issued and the edited frame's
canvas and background are left alone. -/
theorem c3_extent_condition (job : JobState) (img : Image) :
    (mergeExtentCond job = true ↔
      (job.targetFormat = MagickFormat.Gif
        ∧ job.edit.resizeMode = ResizeMode.pixels
        ∧ jsTruthy job.edit.resizeWidth = true
        ∧ jsTruthy job.edit.resizeHeight = true
        ∧ job.edit.ratioLock = true))
    ∧ (∀ w h, mergeExtentCond job = true →
        job.edit.resizeWidth = Option.some w → job.edit.resizeHeight = Option.some h →
        (processMergeFrame job img).ops
            = (applyEdits job.edit img).ops ++ [ImageOp.extent w h GRAVITY_CENTER]
          ∧ (processMergeFrame job img).width = w
          ∧ (processMergeFrame job img).height = h
          ∧ (processMergeFrame job img).backgroundColor = Option.some (0, 0, 0, 0))
    ∧ (mergeExtentCond job = false →
        (processMergeFrame job img).ops = (applyEdits job.edit img).ops
          ∧ (processMergeFrame job img).width = (applyEdits job.edit img).width
          ∧ (processMergeFrame job img).height = (applyEdits job.edit img).height
          ∧ (processMergeFrame job img).backgroundColor
              = (applyEdits job.edit img).backgroundColor) := by
  refine ⟨?_, ?_, ?_⟩
  · unfold mergeExtentCond
    simp [Bool.and_eq_true, beq_iff_eq, and_assoc]
  · intro w h hcond hw hh
    unfold processMergeFrame
    rw [hcond]
    simp only [if_true, hw, hh, Option.getD_some, Image.extent]
    split <;> exact ⟨rfl, rfl, rfl, rfl⟩
  · intro hcond
    unfold processMergeFrame
    rw [hcond]
    simp only [Bool.false_eq_true, if_false]
    split <;> exact ⟨rfl, rfl, rfl, rfl⟩

/-- C4: on the per-file path, if any item's conversion raises, the run
produces no download of any kind — the outcome is a single classified error
message (the outputs accumulated for earlier items exist only inside the
aborted loop and are discarded with it). -/
theorem c4_perfile_failure_aborts (convert : FileItem → Except String Blob)
    (decode : FileItem → Except String Image) (job : JobState)
    (f : FileItem) (e : String)
    (hmerge : (job.makeAnimation
        && canMergeAnimation job.files.length job.targetFormat) = false)
    (hf : f ∈ job.files) (he : convert f = Except.error e) :
    ∃ e', mapExcept (fun item => (convert item).map
          (fun b => (deriveName item.name (resolveExtension job.targetFormat), b)))
          job.files = Except.error e'
      ∧ convertAndDownload convert decode job
          = RunOutcome.runError (classifyError e') := by
  have hne : job.files ≠ [] := by
    intro hnil
    rw [hnil] at hf
    cases hf
  have h0 : (job.files.length == 0) = false := by
    simp only [beq_eq_false_iff_ne, ne_eq]
    intro hlen
    exact hne (List.eq_nil_of_length_eq_zero hlen)
  have hitem : (fun item => (convert item).map
      (fun b => (deriveName item.name (resolveExtension job.targetFormat), b))) f
      = Except.error e := by
    simp only [he, Except.map]
  obtain ⟨e', he'⟩ := @mapExcept_error_of_mem FileItem (String × Blob)
    (fun item => (convert item).map
      (fun b => (deriveName item.name (resolveExtension job.targetFormat), b)))
    job.files f hf e hitem
  refine ⟨e', he', ?_⟩
  unfold convertAndDownload
  rw [h0, hmerge]
  simp only [Bool.false_eq_true, if_false]
  unfold perFileBranch
  rw [he']

/-- C5: on a successful per-file run the outputs are delivered as a single
archive named `converted_images.zip` exactly when the zip flag is set or
more than one item was processed; otherwise the single output is delivered
directly under its derived name. -/
theorem c5_zip_packaging (convert : FileItem → Except String Blob)
    (decode : FileItem → Except String Image) (job : JobState)
    (processed : List (String × Blob))
    (hmerge : (job.makeAnimation
        && canMergeAnimation job.files.length job.targetFormat) = false)
    (hne : job.files ≠ [])
    (hok : mapExcept (fun item => (convert item).map
        (fun b => (deriveName item.name (resolveExtension job.targetFormat), b)))
        job.files = Except.ok processed) :
    ((∃ entries, convertAndDownload convert decode job
        = RunOutcome.zipDownload "converted_images.zip" entries)
      ↔ (job.zipOutput = true ∨ 1 < job.files.length))
    ∧ (∀ f, job.files = [f] → job.zipOutput = false →
        ∃ b, convert f = Except.ok b
          ∧ convertAndDownload convert decode job
              = RunOutcome.singleDownload
                  (deriveName f.name (resolveExtension job.targetFormat)) b) := by
  have h0 : (job.files.length == 0) = false := by
    simp only [beq_eq_false_iff_ne, ne_eq]
    intro hlen
    exact hne (List.eq_nil_of_length_eq_zero hlen)
  have hrun : convertAndDownload convert decode job = packageOutputs job processed := by
    unfold convertAndDownload
    rw [h0, hmerge]
    simp only [Bool.false_eq_true, if_false]
    unfold perFileBranch
    rw [hok]
  constructor
  · constructor
    · rintro ⟨entries, hout⟩
      rw [hrun] at hout
      by_cases hcond : (job.zipOutput || decide (1 < job.files.length)) = true
      · rcases Bool.or_eq_true_iff.mp hcond with hz | hgt
        · exact Or.inl hz
        · exact Or.inr (of_decide_eq_true hgt)
      · exfalso
        unfold packageOutputs at hout
        rw [if_neg hcond] at hout
        cases processed with
        | nil => exact RunOutcome.noConfusion hout
        | cons p t => exact RunOutcome.noConfusion hout
    · intro hc
      have hcond : (job.zipOutput || decide (1 < job.files.length)) = true := by
        rcases hc with hz | hgt
        · rw [hz]; rfl
        · rw [decide_eq_true hgt, Bool.or_true]
      refine ⟨processed, ?_⟩
      rw [hrun]
      unfold packageOutputs
      rw [if_pos hcond]
  · intro f hfeq hz
    rw [hfeq] at hok
    cases hcf : convert f with
    | error e =>
      exfalso
      simp only [mapExcept, hcf, Except.map] at hok
      exact Except.noConfusion hok
    | ok b =>
      have hproc : processed = [(deriveName f.name (resolveExtension job.targetFormat), b)] := by
        simp only [mapExcept, hcf, Except.map] at hok
        cases hok
        rfl
      refine ⟨b, rfl, ?_⟩
      rw [hrun]
      unfold packageOutputs
      have hcond : ¬(job.zipOutput || decide (1 < job.files.length)) = true := by
        rw [hz, hfeq]
        exact Bool.false_ne_true
      rw [if_neg hcond, hproc]

/-- C7: `applyEdits` always rotates first (when rotation is nonzero) and
resizes the rotated frame: in None mode no resize operation is issued; in
Percent mode both dimensions of the frame entering the resize are scaled by
`percent/100`; in Pixels mode with the ratio lock on, a dimension left
unset defaults to the frame's own corresponding dimension before the
aspect-preserving fit; with the lock off the exact width × height is forced
with aspect ratio ignored. -/
theorem c7_applyEdits_rotate_then_resize (st : EditState) (img : Image) :
    (st.resizeMode = ResizeMode.noResize →
      applyEdits st img
        = (if st.rotation != 0 then Image.rotate st.rotation img else img))
    ∧ (st.resizeMode = ResizeMode.percent →
      applyEdits st img
        = Image.resizeFit
            (((if st.rotation != 0 then Image.rotate st.rotation img else img).width : ℚ)
              * st.resizePercent / 100)
            (((if st.rotation != 0 then Image.rotate st.rotation img else img).height : ℚ)
              * st.resizePercent / 100)
            (if st.rotation != 0 then Image.rotate st.rotation img else img))
    ∧ (∀ w, st.resizeMode = ResizeMode.pixels → st.ratioLock = true →
        st.resizeWidth = Option.some w → w ≠ 0 → st.resizeHeight = Option.none →
        applyEdits st img
          = Image.resizeFit (w : ℚ)
              ((if st.rotation != 0 then Image.rotate st.rotation img else img).height : ℚ)
              (if st.rotation != 0 then Image.rotate st.rotation img else img))
    ∧ (∀ h, st.resizeMode = ResizeMode.pixels → st.ratioLock = true →
        st.resizeWidth = Option.none → st.resizeHeight = Option.some h → h ≠ 0 →
        applyEdits st img
          = Image.resizeFit
              ((if st.rotation != 0 then Image.rotate st.rotation img else img).width : ℚ)
              (h : ℚ)
              (if st.rotation != 0 then Image.rotate st.rotation img else img))
    ∧ (∀ w h, st.resizeMode = ResizeMode.pixels → st.ratioLock = false →
        st.resizeWidth = Option.some w → w ≠ 0 →
        st.resizeHeight = Option.some h → h ≠ 0 →
        applyEdits st img
          = Image.resizeExact (w : ℚ) (h : ℚ)
              (if st.rotation != 0 then Image.rotate st.rotation img else img)) := by
  refine ⟨?_, ?_, ?_, ?_, ?_⟩
  · intro hmode
    unfold applyEdits
    rw [hmode]
  · intro hmode
    unfold applyEdits
    rw [hmode]
  · intro w hmode hlock hw hwne hh
    unfold applyEdits
    rw [hmode, hw, hh, hlock]
    simp [jsTruthy, hwne]
  · intro h hmode hlock hw hh hhne
    unfold applyEdits
    rw [hmode, hw, hh, hlock]
    simp [jsTruthy, hhne]
  · intro w h hmode hlock hw hwne hh hhne
    unfold applyEdits
    rw [hmode, hw, hh, hlock]
    simp [jsTruthy, hwne, hhne]

/-- C8: the user-facing message of a failed run is selected by failure
signature: a missing-external-codec signature yields the pick-GIF/WebP
instruction, a uniform-size-violation signature yields the resize/ratio-lock
hint, and any other failure is surfaced as `"Conversion failed. "` followed
by the raw message verbatim. -/
theorem c8_error_message_selection (msg : String) :
    ((jsIncludes msg "FailedToExecuteCommand" || jsIncludes msg "ffmpeg") = true →
      classifyError msg
        = "This format requires external libraries (ffmpeg) not available. Please use GIF or WebP.")
    ∧ ((jsIncludes msg "FailedToExecuteCommand" || jsIncludes msg "ffmpeg") = false →
        jsIncludes msg "ImagesAreNotTheSameSize" = true →
        classifyError msg
          = "GIF Error: Frames mismatch. Please ensure 'Resize' width/height are set if locking ratio.")
    ∧ ((jsIncludes msg "FailedToExecuteCommand" || jsIncludes msg "ffmpeg") = false →
        jsIncludes msg "ImagesAreNotTheSameSize" = false →
        classifyError msg = "Conversion failed. " ++ msg) := by
  refine ⟨?_, ?_, ?_⟩
  · intro h1
    unfold classifyError
    rw [h1]
    rfl
  · intro h1 h2
    unfold classifyError
    rw [h1, h2]
    rfl
  · intro h1 h2
    unfold classifyError
    rw [h1, h2]
    rfl

/-- C9: file selection only keeps entries whose declared mime type begins
with `image/`, appending them to the current list with the rejected ones
having no effect on them; when more than five entries are rejected, the
message lists exactly the first five rejected names followed by an
`", and N others."` suffix with `N` the number of remaining rejects. -/
theorem c9_ingestion_filter_and_message (current fileList : List SelEntry) :
    (addFiles current fileList).1
        = current ++ fileList.filter (fun f => jsStartsWith f.mime "image/")
    ∧ (5 < ((fileList.filter (fun f => !jsStartsWith f.mime "image/")).map
          (fun f => f.name)).length →
        (addFiles current fileList).2
          = "Skipped unsupported files: "
            ++ String.intercalate ", "
              (((fileList.filter (fun f => !jsStartsWith f.mime "image/")).map
                (fun f => f.name)).take 5)
            ++ (", and "
              ++ toString (((((fileList.filter (fun f => !jsStartsWith f.mime "image/")).map
                    (fun f => f.name)).length : Int)) - 5)
              ++ " others.")) := by
  constructor
  · rfl
  · intro h5
    have h0 : 0 < ((fileList.filter (fun f => !jsStartsWith f.mime "image/")).map
        (fun f => f.name)).length := by omega
    have hpos : (0 : Int) < ((((fileList.filter (fun f => !jsStartsWith f.mime "image/")).map
        (fun f => f.name)).length : Int)) - 5 := by omega
    simp only [addFiles]
    rw [if_pos h0, if_pos hpos]

/-- Per-event unfolding equations for `step`. -/
lemma step_setMode (s : UIState) (m : ResizeMode) :
    step s (UIEvent.setMode m) = { s with resizeMode := m } := rfl

lemma step_setWidth (s : UIState) (v : Option Nat) :
    step s (UIEvent.setWidth v)
      = if s.resizeMode == ResizeMode.pixels && v != s.resizeWidth then
          dimWatch { s with resizeWidth := v }
        else s := rfl

lemma step_setHeight (s : UIState) (v : Option Nat) :
    step s (UIEvent.setHeight v)
      = if s.resizeMode == ResizeMode.pixels && v != s.resizeHeight then
          dimWatch { s with resizeHeight := v }
        else s := rfl

lemma step_toggle (s : UIState) :
    step s UIEvent.toggleRatioLock
      = if s.resizeMode == ResizeMode.pixels then
          { s with ratioLock := !s.ratioLock }
        else s := rfl

/-- The watch callback only ever touches the ratio lock. -/
lemma dimWatch_resizeWidth (s : UIState) : (dimWatch s).resizeWidth = s.resizeWidth := by
  unfold dimWatch
  split <;> rfl

lemma dimWatch_resizeHeight (s : UIState) : (dimWatch s).resizeHeight = s.resizeHeight := by
  unfold dimWatch
  split <;> rfl

lemma dimWatch_resizeMode (s : UIState) : (dimWatch s).resizeMode = s.resizeMode := by
  unfold dimWatch
  split <;> rfl

lemma runTrace_concat (t : List UIEvent) (e : UIEvent) :
    runTrace (t ++ [e]) = step (runTrace t) e := by
  unfold runTrace
  rw [List.foldl_append]
  rfl

/-- Reaching a state with both dimensions set and the ratio lock on requires
an explicit lock toggle, taken in `'pixels'` mode at a moment when both
dimensions were already set and the lock was off. -/
lemma lock_on_needs_explicit_toggle (tr : List UIEvent)
    (h1 : bothSet (runTrace tr) = true) (h2 : (runTrace tr).ratioLock = true) :
    ∃ t1 t2, tr = t1 ++ UIEvent.toggleRatioLock :: t2
      ∧ bothSet (runTrace t1) = true
      ∧ (runTrace t1).ratioLock = false
      ∧ (runTrace t1).resizeMode = ResizeMode.pixels := by
  induction tr using List.reverseRecOn with
  | nil =>
    exfalso
    simp [runTrace, initState, bothSet, jsTruthy] at h1
  | append_singleton t e ih =>
    rw [runTrace_concat] at h1 h2
    cases e with
    | setMode m =>
      have h1' : bothSet (runTrace t) = true := h1
      have h2' : (runTrace t).ratioLock = true := h2
      obtain ⟨t1, t2, htr, hb, hl, hm⟩ := ih h1' h2'
      exact ⟨t1, t2 ++ [UIEvent.setMode m], by simp [htr], hb, hl, hm⟩
    | setWidth v =>
      by_cases hg : ((runTrace t).resizeMode == ResizeMode.pixels
          && v != (runTrace t).resizeWidth) = true
      · exfalso
        have hstep : step (runTrace t) (UIEvent.setWidth v)
            = dimWatch { runTrace t with resizeWidth := v } := by
          rw [step_setWidth, if_pos hg]
        rw [hstep] at h1 h2
        unfold bothSet at h1
        rw [dimWatch_resizeWidth, dimWatch_resizeHeight] at h1
        simp only [Bool.and_eq_true] at h1
        obtain ⟨hv, hh⟩ := h1
        have hmode : ((runTrace t).resizeMode == ResizeMode.pixels) = true :=
          (Bool.and_eq_true _ _ ▸ hg).1
        have hcond : (jsTruthy ({ runTrace t with resizeWidth := v }).resizeWidth
            && jsTruthy ({ runTrace t with resizeWidth := v }).resizeHeight
            && (({ runTrace t with resizeWidth := v }).resizeMode
                == ResizeMode.pixels)) = true := by
          simp only [hv, hh, hmode, Bool.and_self]
        have hred : dimWatch { runTrace t with resizeWidth := v }
            = { runTrace t with resizeWidth := v, ratioLock := false } := by
          unfold dimWatch
          rw [if_pos hcond]
        rw [hred] at h2
        exact Bool.false_ne_true h2
      · have hstep : step (runTrace t) (UIEvent.setWidth v) = runTrace t := by
          rw [step_setWidth, if_neg hg]
        rw [hstep] at h1 h2
        obtain ⟨t1, t2, htr, hb, hl, hm⟩ := ih h1 h2
        exact ⟨t1, t2 ++ [UIEvent.setWidth v], by simp [htr], hb, hl, hm⟩
    | setHeight v =>
      by_cases hg : ((runTrace t).resizeMode == ResizeMode.pixels
          && v != (runTrace t).resizeHeight) = true
      · exfalso
        have hstep : step (runTrace t) (UIEvent.setHeight v)
            = dimWatch { runTrace t with resizeHeight := v } := by
          rw [step_setHeight, if_pos hg]
        rw [hstep] at h1 h2
        unfold bothSet at h1
        rw [dimWatch_resizeWidth, dimWatch_resizeHeight] at h1
        simp only [Bool.and_eq_true] at h1
        obtain ⟨hw, hv⟩ := h1
        have hmode : ((runTrace t).resizeMode == ResizeMode.pixels) = true :=
          (Bool.and_eq_true _ _ ▸ hg).1
        have hcond : (jsTruthy ({ runTrace t with resizeHeight := v }).resizeWidth
            && jsTruthy ({ runTrace t with resizeHeight := v }).resizeHeight
            && (({ runTrace t with resizeHeight := v }).resizeMode
                == ResizeMode.pixels)) = true := by
          simp only [hw, hv, hmode, Bool.and_self]
        have hred : dimWatch { runTrace t with resizeHeight := v }
            = { runTrace t with resizeHeight := v, ratioLock := false } := by
          unfold dimWatch
          rw [if_pos hcond]
        rw [hred] at h2
        exact Bool.false_ne_true h2
      · have hstep : step (runTrace t) (UIEvent.setHeight v) = runTrace t := by
          rw [step_setHeight, if_neg hg]
        rw [hstep] at h1 h2
        obtain ⟨t1, t2, htr, hb, hl, hm⟩ := ih h1 h2
        exact ⟨t1, t2 ++ [UIEvent.setHeight v], by simp [htr], hb, hl, hm⟩
    | toggleRatioLock =>
      by_cases hg : ((runTrace t).resizeMode == ResizeMode.pixels) = true
      · have hstep : step (runTrace t) UIEvent.toggleRatioLock
            = { runTrace t with ratioLock := !(runTrace t).ratioLock } := by
          rw [step_toggle, if_pos hg]
        rw [hstep] at h1 h2
        have hb : bothSet (runTrace t) = true := h1
        have hl : (runTrace t).ratioLock = false := by
          cases hv : (runTrace t).ratioLock with
          | false => rfl
          | true =>
            have h2' : (!(runTrace t).ratioLock) = true := h2
            rw [hv] at h2'
            exact absurd h2' (by decide)
        exact ⟨t, [], rfl, hb, hl, by simpa using hg⟩
      · have hstep : step (runTrace t) UIEvent.toggleRatioLock = runTrace t := by
          rw [step_toggle, if_neg hg]
        rw [hstep] at h1 h2
        obtain ⟨t1, t2, htr, hb, hl, hm⟩ := ih h1 h2
        exact ⟨t1, t2 ++ [UIEvent.toggleRatioLock], by simp [htr], hb, hl, hm⟩

/-- C10: whenever the mode is `'pixels'` and a dimension edit makes both
dimensions set, the watch forces the ratio lock off (first two parts);
consequently a state satisfying the GIF canvas-padding precondition —
pixels mode, both dimensions set, lock on — is reachable only through an
explicit lock toggle taken in pixels mode after both dimensions were already
entered, while the lock was off (third part). -/
theorem c10_watch_unlocks_and_only_toggle_relocks :
    (∀ s v, s.resizeMode = ResizeMode.pixels → v ≠ s.resizeWidth →
        jsTruthy v = true → jsTruthy s.resizeHeight = true →
        (step s (UIEvent.setWidth v)).ratioLock = false)
    ∧ (∀ s v, s.resizeMode = ResizeMode.pixels → v ≠ s.resizeHeight →
        jsTruthy s.resizeWidth = true → jsTruthy v = true →
        (step s (UIEvent.setHeight v)).ratioLock = false)
    ∧ (∀ tr, gifPadPrecond (runTrace tr) = true →
        ∃ t1 t2, tr = t1 ++ UIEvent.toggleRatioLock :: t2
          ∧ bothSet (runTrace t1) = true
          ∧ (runTrace t1).ratioLock = false
          ∧ (runTrace t1).resizeMode = ResizeMode.pixels) := by
  refine ⟨?_, ?_, ?_⟩
  · intro s v hm hne hv hh
    have hg : (s.resizeMode == ResizeMode.pixels && v != s.resizeWidth) = true := by
      simp [hm, bne_iff_ne, hne]
    rw [step_setWidth, if_pos hg]
    have hcond : (jsTruthy ({ s with resizeWidth := v }).resizeWidth
        && jsTruthy ({ s with resizeWidth := v }).resizeHeight
        && (({ s with resizeWidth := v }).resizeMode == ResizeMode.pixels)) = true := by
      simp [hv, hh, hm]
    unfold dimWatch
    rw [if_pos hcond]
  · intro s v hm hne hw hv
    have hg : (s.resizeMode == ResizeMode.pixels && v != s.resizeHeight) = true := by
      simp [hm, bne_iff_ne, hne]
    rw [step_setHeight, if_pos hg]
    have hcond : (jsTruthy ({ s with resizeHeight := v }).resizeWidth
        && jsTruthy ({ s with resizeHeight := v }).resizeHeight
        && (({ s with resizeHeight := v }).resizeMode == ResizeMode.pixels)) = true := by
      simp [hw, hv, hm]
    unfold dimWatch
    rw [if_pos hcond]
  · intro tr hp
    unfold gifPadPrecond at hp
    simp only [Bool.and_eq_true] at hp
    obtain ⟨⟨-, hb⟩, hl⟩ := hp
    exact lock_on_needs_explicit_toggle tr hb hl

/-- Concrete fixtures used to exercise the theorems on closed inputs. -/
def demoImage : Image :=
  { width := 100, height := 50, ops := [], format := MagickFormat.Png,
    quality := 90, animationDelay := 0, gifDisposeMethod := 0,
    backgroundColor := Option.none }

def demoEdit : EditState :=
  { rotation := 0, resizeMode := ResizeMode.noResize, resizePercent := 50,
    resizeWidth := Option.none, resizeHeight := Option.none, ratioLock := true }

def demoDecode : FileItem → Except String Image := fun _ => Except.ok demoImage

def demoConvert : FileItem → Except String Blob := fun _ => Except.ok [7]

def demoConvertFail : FileItem → Except String Blob := fun _ => Except.error "boom"

def demoFiles3 : List FileItem :=
  [⟨"a.png", "image/png"⟩, ⟨"b.png", "image/png"⟩, ⟨"c.png", "image/png"⟩]

def demoJob1 : JobState :=
  { files := [⟨"a.png", "image/png"⟩], targetFormat := MagickFormat.Png,
    edit := demoEdit, animationDelay := 200, zipOutput := false,
    makeAnimation := false, quality := 90 }

def demoJob2 : JobState :=
  { files := demoFiles3, targetFormat := MagickFormat.Gif,
    edit := demoEdit, animationDelay := 200, zipOutput := false,
    makeAnimation := true, quality := 90 }

def demoJob3 : JobState :=
  { files := demoFiles3, targetFormat := MagickFormat.Gif,
    edit := { rotation := 0, resizeMode := ResizeMode.pixels, resizePercent := 50,
              resizeWidth := Option.some 100, resizeHeight := Option.some 50,
              ratioLock := true },
    animationDelay := 200, zipOutput := false, makeAnimation := true, quality := 90 }

def demoJob4 : JobState :=
  { files := demoFiles3, targetFormat := MagickFormat.Png,
    edit := demoEdit, animationDelay := 200, zipOutput := false,
    makeAnimation := false, quality := 90 }

def demoJob5 : JobState :=
  { files := [⟨"photo.jpg", "image/jpeg"⟩], targetFormat := MagickFormat.Png,
    edit := demoEdit, animationDelay := 200, zipOutput := false,
    makeAnimation := false, quality := 90 }

def demoEditC7 : EditState :=
  { rotation := 90, resizeMode := ResizeMode.pixels, resizePercent := 50,
    resizeWidth := Option.some 100, resizeHeight := Option.none, ratioLock := true }

def demoSel : List SelEntry :=
  [⟨"a.txt", "text/plain"⟩, ⟨"b.txt", "text/plain"⟩, ⟨"c.txt", "text/plain"⟩,
   ⟨"d.txt", "text/plain"⟩, ⟨"e.txt", "text/plain"⟩, ⟨"f.txt", "text/plain"⟩,
   ⟨"g.txt", "text/plain"⟩, ⟨"h.png", "image/png"⟩]

def demoTrace : List UIEvent :=
  [UIEvent.setMode ResizeMode.pixels, UIEvent.setWidth (Option.some 100),
   UIEvent.setHeight (Option.some 50), UIEvent.toggleRatioLock]

def demoPixState : UIState :=
  { resizeMode := ResizeMode.pixels, resizeWidth := Option.none,
    resizeHeight := Option.some 50, ratioLock := true }

/-- Witness for C1 on a one-file, non-merge job. -/
theorem c1_merge_path_decision_witness :
    convertAndDownload demoConvert demoDecode demoJob1 =
      if demoJob1.makeAnimation = true
          ∧ (demoJob1.targetFormat = MagickFormat.Gif
            ∨ demoJob1.targetFormat = MagickFormat.WebP)
          ∧ 2 ≤ demoJob1.files.length then
        mergeBranch demoDecode demoJob1
      else
        perFileBranch demoConvert demoJob1 :=
  c1_merge_path_decision demoConvert demoDecode demoJob1 (by decide)

/-- Witness for C2 on a three-file GIF merge job with a 200 ms delay. -/
theorem c2_merge_three_gif_frames_witness :
    ∃ out, convertAndDownload demoConvert demoDecode demoJob2
        = RunOutcome.mergeDownload "animation.gif" out
      ∧ out.frames = [demoImage, demoImage, demoImage].map (processMergeFrame demoJob2)
      ∧ out.frames.length = 3
      ∧ ∀ fr ∈ out.frames,
          fr.animationDelay = 20 ∧ fr.gifDisposeMethod = GIF_DISPOSE_BACKGROUND :=
  c2_merge_three_gif_frames demoConvert demoDecode demoJob2
    [demoImage, demoImage, demoImage] rfl rfl rfl rfl rfl

/-- Witness for C3 on a GIF merge job in Pixels mode with both dimensions
set and the ratio lock on. -/
theorem c3_extent_condition_witness :
    mergeExtentCond demoJob3 = true
    ∧ (processMergeFrame demoJob3 demoImage).ops
        = (applyEdits demoJob3.edit demoImage).ops
          ++ [ImageOp.extent 100 50 GRAVITY_CENTER]
    ∧ (processMergeFrame demoJob3 demoImage).width = 100
    ∧ (processMergeFrame demoJob3 demoImage).height = 50
    ∧ (processMergeFrame demoJob3 demoImage).backgroundColor
        = Option.some (0, 0, 0, 0) := by
  obtain ⟨h1, h2, h3, h4⟩ :=
    (c3_extent_condition demoJob3 demoImage).2.1 100 50 rfl rfl rfl
  exact ⟨rfl, h1, h2, h3, h4⟩

/-- Witness for C4: every item's conversion fails on this job. -/
theorem c4_perfile_failure_aborts_witness :
    ∃ e', mapExcept (fun item => (demoConvertFail item).map
          (fun b => (deriveName item.name (resolveExtension demoJob4.targetFormat), b)))
          demoJob4.files = Except.error e'
      ∧ convertAndDownload demoConvertFail demoDecode demoJob4
          = RunOutcome.runError (classifyError e') :=
  c4_perfile_failure_aborts demoConvertFail demoDecode demoJob4
    ⟨"a.png", "image/png"⟩ "boom" rfl (by decide) rfl

/-- Witness for C5 on a successful one-file job with the zip flag off. -/
theorem c5_zip_packaging_witness :
    ((∃ entries, convertAndDownload demoConvert demoDecode demoJob5
        = RunOutcome.zipDownload "converted_images.zip" entries)
      ↔ (demoJob5.zipOutput = true ∨ 1 < demoJob5.files.length))
    ∧ (∀ f, demoJob5.files = [f] → demoJob5.zipOutput = false →
        ∃ b, demoConvert f = Except.ok b
          ∧ convertAndDownload demoConvert demoDecode demoJob5
              = RunOutcome.singleDownload
                  (deriveName f.name (resolveExtension demoJob5.targetFormat)) b) :=
  c5_zip_packaging demoConvert demoDecode demoJob5
    [("photo.png", [7])] rfl (by decide) rfl

/-- Witness for C7: 90° rotation, Pixels mode, width 100, height unset,
ratio lock on. -/
theorem c7_applyEdits_rotate_then_resize_witness :
    applyEdits demoEditC7 demoImage
      = Image.resizeFit (100 : ℚ)
          ((if demoEditC7.rotation != 0 then
              Image.rotate demoEditC7.rotation demoImage else demoImage).height : ℚ)
          (if demoEditC7.rotation != 0 then
            Image.rotate demoEditC7.rotation demoImage else demoImage) :=
  (c7_applyEdits_rotate_then_resize demoEditC7 demoImage).2.2.1 100
    rfl rfl rfl (by decide) rfl

/-- Witness for C8 on a message matching no special signature. -/
theorem c8_error_message_selection_witness :
    classifyError "boom" = "Conversion failed. " ++ "boom" :=
  (c8_error_message_selection "boom").2.2 (by decide) (by decide)

/-- Witness for C9: seven non-image files plus one image file. -/
theorem c9_ingestion_filter_and_message_witness :
    (addFiles [] demoSel).1 = [⟨"h.png", "image/png"⟩]
    ∧ (addFiles [] demoSel).2
        = "Skipped unsupported files: a.txt, b.txt, c.txt, d.txt, e.txt, and 2 others." := by
  constructor
  · rw [(c9_ingestion_filter_and_message [] demoSel).1]
    decide
  · rw [(c9_ingestion_filter_and_message [] demoSel).2 (by decide)]
    decide

/-- Witness for C10: enter pixels mode, type both dimensions (the watch
clears the lock), then explicitly re-enable the lock. -/
theorem c10_watch_unlocks_and_only_toggle_relocks_witness :
    (step demoPixState (UIEvent.setWidth (Option.some 100))).ratioLock = false
    ∧ gifPadPrecond (runTrace demoTrace) = true
    ∧ ∃ t1 t2, demoTrace = t1 ++ UIEvent.toggleRatioLock :: t2
        ∧ bothSet (runTrace t1) = true
        ∧ (runTrace t1).ratioLock = false
        ∧ (runTrace t1).resizeMode = ResizeMode.pixels :=
  ⟨c10_watch_unlocks_and_only_toggle_relocks.1 demoPixState (Option.some 100)
      rfl (by decide) rfl rfl,
   by decide,
   c10_watch_unlocks_and_only_toggle_relocks.2.2 demoTrace (by decide)⟩
